import Mathlib

/-
Verification of the request-orchestration core in src/src/manager.rs
(U2FManager): request validation, queue-action construction, the
register-path response encoder, the single-fire callback adapter and the
session-worker loop. Pure data that manager.rs builds is embedded
directly; collaborator types whose sources live outside src/ are modelled
from the specification and say so in their doc comments.
-/

set_option linter.unusedVariables false
set_option maxRecDepth 8192

namespace AuthenticatorRs

/-- Raw byte strings are lists of naturals; each entry stands for one byte. -/
abbrev Bytes := List Nat

/-- Modelled from the spec: `PARAMETER_SIZE` comes from the `consts` module,
which is not under src/; the spec fixes the challenge and
application-identifier size at a 32-byte digest. -/
def PARAMETER_SIZE : Nat := 32

/-- The single generic error value `Error::Unknown` that manager.rs reports
for every validation and send failure. -/
inductive Error where
  | unknown
deriving DecidableEq, Repr

/-- Modelled from the spec: `KeyHandle` (crate root, not under src/); only its
opaque credential bytes are consulted by manager.rs (§3 CredentialDescriptor). -/
structure KeyHandle where
  credential : Bytes
deriving DecidableEq, Repr

/-- Modelled from the spec: the credential descriptor produced by
`key_handle.into()` — opaque credential identifier bytes (§3). -/
structure PublicKeyCredentialDescriptor where
  id : Bytes
deriving DecidableEq, Repr

def KeyHandle.intoDescriptor (kh : KeyHandle) : PublicKeyCredentialDescriptor :=
  { id := kh.credential }

inductive WebauthnType where
  | create
  | get
deriving DecidableEq, Repr

inductive Origin where
  | none
deriving DecidableEq, Repr

structure Challenge where
  bytes : Bytes
deriving DecidableEq, Repr

def Challenge.from (b : Bytes) : Challenge := { bytes := b }

/-- Client data as constructed in manager.rs: origin and token binding are
always unset in this client (§3). The token-binding payload type lives outside
src/ and is opaque here. -/
structure CollectedClientData where
  type_ : WebauthnType
  challenge : Challenge
  origin : Origin
  token_binding : Option Unit
deriving DecidableEq, Repr

/-- Modelled from the spec: `MakeCredentialsOptions` (ctap2::commands, not
under src/); the user-verification flag is the only option manager.rs ever
sets (§3, §4.7). -/
structure MakeCredentialsOptions where
  user_validation : Bool
deriving DecidableEq, Repr

/-- Modelled from the spec: `MakeCredentialsOptions::default()` — options left
unset. -/
def MakeCredentialsOptions.default : MakeCredentialsOptions :=
  { user_validation := false }

/-- Modelled from the spec: a relying-party descriptor holding the
already-hashed relying-party id (§4.2). -/
structure RelyingParty where
  hash : Bytes
deriving DecidableEq, Repr

/-- Modelled from the spec: `RelyingParty::new_hash` (ctap2::server, not under
src/). §4.2 and §6: the caller-supplied application identifier is taken as the
already-hashed relying-party id; resolution fails when it is not a valid
digest-sized hash value. -/
def RelyingParty.new_hash (app : Bytes) : Except Unit RelyingParty :=
  if app.length = PARAMETER_SIZE then Except.ok { hash := app } else Except.error ()

-- The user, pin and public-key-parameter payloads never carry data in
-- manager.rs (the user and pin arguments are always absent, the parameter
-- list always empty), so their types are opaque here.
abbrev User := Unit
abbrev Pin := Unit
abbrev PublicKeyCredentialParameters := Unit

/-- Modelled from the spec: `MakeCredentials::new` (ctap2::commands, not under
src/) records its arguments; §3 lists exactly these RegisterRequest
components. -/
structure MakeCredentials where
  client_data : CollectedClientData
  rp : RelyingParty
  user : Option User
  pub_cred_params : List PublicKeyCredentialParameters
  exclude_list : List PublicKeyCredentialDescriptor
  options : Option MakeCredentialsOptions
  pin : Option Pin
deriving DecidableEq, Repr

def MakeCredentials.new (client_data : CollectedClientData) (rp : RelyingParty)
    (user : Option User) (pub_cred_params : List PublicKeyCredentialParameters)
    (exclude_list : List PublicKeyCredentialDescriptor)
    (options : Option MakeCredentialsOptions) (pin : Option Pin) : MakeCredentials :=
  { client_data, rp, user, pub_cred_params, exclude_list, options, pin }

/-- Modelled from the spec: `GetAssertion::new` (ctap2::commands, not under
src/) records its arguments; §3 lists exactly these SignRequest components. -/
structure GetAssertion where
  client_data : CollectedClientData
  rp : RelyingParty
  allow_list : List PublicKeyCredentialDescriptor
  options : Option MakeCredentialsOptions
  pin : Option Pin
deriving DecidableEq, Repr

def GetAssertion.new (client_data : CollectedClientData) (rp : RelyingParty)
    (allow_list : List PublicKeyCredentialDescriptor)
    (options : Option MakeCredentialsOptions) (pin : Option Pin) : GetAssertion :=
  { client_data, rp, allow_list, options, pin }

/-- Modelled from the spec: the credential public key in the legacy fixed-size
point encoding; manager.rs reads only its raw `bytes`. -/
structure CredentialPublicKey where
  bytes : Bytes
deriving DecidableEq, Repr

/-- Modelled from the spec: the attested credential data carried by the
authenticator data; the credential id and public key are all manager.rs
reads. -/
structure AttestedCredentialData where
  credential_id : Bytes
  credential_public_key : CredentialPublicKey
deriving DecidableEq, Repr

structure AuthenticatorData where
  credential_data : Option AttestedCredentialData
deriving DecidableEq, Repr

/-- Modelled from the spec: the legacy FidoU2F attestation statement — a
certificate chain and a signature (§4.6). -/
structure AttestationStatementFidoU2F where
  attestation_cert : List Bytes
  sig : Bytes
deriving DecidableEq, Repr

/-- Modelled from the spec: the attestation statement; every non-FidoU2F
statement format is collapsed into `other`, which is all the encoder
distinguishes. -/
inductive AttestationStatement where
  | fidoU2F (u2f : AttestationStatementFidoU2F)
  | other
deriving DecidableEq, Repr

structure AttestationObject where
  auth_data : AuthenticatorData
  att_statement : AttestationStatement
deriving DecidableEq, Repr

/-- Modelled from the spec: an assertion result; manager.rs only calls
`u2f_sign_data()` on it, so the model carries that payload directly. -/
structure AssertionObject where
  u2f_sign_data : Bytes
deriving DecidableEq, Repr

abbrev AppId := Bytes

/-- Per §6: the sign completion payload (application id, credential id,
signature data). -/
abbrev SignResult := AppId × Bytes × Bytes

abbrev RegisterResult := Bytes

/-- The register-path response encoding closure of manager.rs lines 150-192,
written against an in-memory cursor (writes to a growable buffer cannot
fail). `none` models a fatal condition: the `unwrap` on absent credential
data, the explicit fatal stop on a non-FidoU2F statement, or indexing an
empty certificate chain at `attestation_cert[0]`. The single length byte is
the Rust `as u8` cast, hence the reduction modulo 256. -/
def registerEncode (attestation_object : AttestationObject) : Option RegisterResult :=
  match attestation_object.auth_data.credential_data with
  | Option.none => Option.none
  | Option.some credential_data =>
    match attestation_object.att_statement with
    | AttestationStatement.fidoU2F u2f =>
      match u2f.attestation_cert.head? with
      | Option.none => Option.none
      | Option.some cert0 =>
        Option.some (0x05 :: credential_data.credential_public_key.bytes
          ++ credential_data.credential_id.length % 256 :: credential_data.credential_id
          ++ cert0 ++ u2f.sig)
    | AttestationStatement.other => Option.none

/-- The action-queue items of manager.rs lines 23-35. The callback fields hold
the `OnceCallbackMap` result transforms actually enqueued: the register
transform runs the response encoder (its `Option` models the encoder's fatal
conditions), the sign transform emits the §6 triple. -/
inductive QueueAction where
  | register (timeout : Nat) (params : MakeCredentials)
      (callback : AttestationObject × CollectedClientData → Option RegisterResult)
  | sign (timeout : Nat) (command : GetAssertion)
      (callback : AssertionObject → SignResult)
  | cancel

/-- Modelled from the spec: `RegisterFlags` (crate root, not under src/);
manager.rs consults only `REQUIRE_USER_VERIFICATION`. -/
structure RegisterFlags where
  require_user_verification : Bool
deriving DecidableEq, Repr

def RegisterFlags.REQUIRE_USER_VERIFICATION : RegisterFlags :=
  { require_user_verification := true }

def RegisterFlags.contains (self other : RegisterFlags) : Bool :=
  !other.require_user_verification || self.require_user_verification

/-- Modelled from the spec: `SignFlags` (crate root, not under src/);
manager.rs never consults it (the flag-based authenticator-selection block is
commented out in the source). -/
structure SignFlags where
  bits : Nat
deriving DecidableEq, Repr

inductive Capability where
  | fido2
deriving DecidableEq, Repr

/-- The facade state that survives construction: the capability filter
(manager.rs lines 41-46). The queue sender and worker thread are modelled by
the action lists the public calls produce and by `workerRun` below. -/
structure U2FManager where
  filter : Option Capability
deriving DecidableEq, Repr

/-- `U2FManager::new` starts with no capability filter (manager.rs line 102). -/
def U2FManager.new : U2FManager := { filter := Option.none }

/-- `U2FManager::fido2_capable` (manager.rs lines 106-108). -/
def U2FManager.fido2_capable (m : U2FManager) : U2FManager :=
  { m with filter := Option.some Capability.fido2 }

/-- The key-handle loop of `U2FManager::register` (manager.rs lines 135-142):
a handle longer than 256 bytes aborts with the generic error, otherwise its
descriptor is pushed. -/
def registerExcluded : List KeyHandle → Except Error (List PublicKeyCredentialDescriptor)
  | [] => Except.ok []
  | kh :: rest =>
    if kh.credential.length > 256 then Except.error Error.unknown
    else Except.map (fun tl => kh.intoDescriptor :: tl) (registerExcluded rest)

/-- `U2FManager::register` (manager.rs lines 110-212). The result pairs the
actions actually sent on the queue with the synchronous return value; the
channel send itself is modelled as succeeding (worker alive). Note that the
locally built `options` value is never passed on: `MakeCredentials::new`
receives `None` for both its options and pin arguments, exactly as in the
source. -/
def U2FManager.register (m : U2FManager) (flags : RegisterFlags) (timeout : Nat)
    (challenge : Bytes) (application : AppId) (key_handles : List KeyHandle) :
    List QueueAction × Except Error Unit :=
  if challenge.length ≠ PARAMETER_SIZE ∨ application.length ≠ PARAMETER_SIZE then
    ([], Except.error Error.unknown)
  else
    let challenge2 := Challenge.from challenge
    let client_data : CollectedClientData :=
      { type_ := WebauthnType.create, challenge := challenge2,
        origin := Origin.none, token_binding := Option.none }
    match registerExcluded key_handles with
    | Except.error e => ([], Except.error e)
    | Except.ok excluded_handles =>
      let options : MakeCredentialsOptions :=
        { MakeCredentialsOptions.default with
          user_validation := flags.contains RegisterFlags.REQUIRE_USER_VERIFICATION }
      let callback := fun (p : AttestationObject × CollectedClientData) => registerEncode p.1
      match RelyingParty.new_hash application with
      | Except.error _ => ([], Except.error Error.unknown)
      | Except.ok rp =>
        let register := MakeCredentials.new client_data rp Option.none []
          excluded_handles Option.none Option.none
        ([QueueAction.register timeout register callback], Except.ok ())

/-- Client data built by `U2FManager::sign` (manager.rs lines 238-243). -/
def signClientData (challenge : Bytes) : CollectedClientData :=
  { type_ := WebauthnType.get, challenge := Challenge.from challenge,
    origin := Origin.none, token_binding := Option.none }

/-- Options built by `U2FManager::sign` (manager.rs lines 259-264): user
verification is hard-coded to true; the caller's flags are not consulted. -/
def signOptions : MakeCredentialsOptions :=
  { MakeCredentialsOptions.default with user_validation := true }

/-- The inner key-handle loop of `U2FManager::sign` (manager.rs lines 267-292)
for one application id: an oversized handle or a relying-party resolution
failure aborts with the generic error, leaving the actions sent so far in the
queue; otherwise one Sign action per handle is sent. -/
def signKhLoop (timeout : Nat) (client_data : CollectedClientData)
    (options : MakeCredentialsOptions) (app_id : AppId) :
    List KeyHandle → List QueueAction × Except Error Unit
  | [] => ([], Except.ok ())
  | key_handle :: rest =>
    if key_handle.credential.length > 256 then ([], Except.error Error.unknown)
    else
      match RelyingParty.new_hash app_id with
      | Except.error _ => ([], Except.error Error.unknown)
      | Except.ok rp =>
        let allow_list := [key_handle.intoDescriptor]
        let command := GetAssertion.new client_data rp allow_list
          (Option.some options) Option.none
        let cred := key_handle.credential
        let action := QueueAction.sign timeout command
          (fun assertion_object => (app_id, cred, assertion_object.u2f_sign_data))
        let tail := signKhLoop timeout client_data options app_id rest
        (action :: tail.1, tail.2)

/-- The outer application-id loop of `U2FManager::sign` (manager.rs line 266):
application ids are processed in order until the first failing pair; actions
sent before the failure stay sent. -/
def signAppLoop (timeout : Nat) (client_data : CollectedClientData)
    (options : MakeCredentialsOptions) (key_handles : List KeyHandle) :
    List AppId → List QueueAction × Except Error Unit
  | [] => ([], Except.ok ())
  | app_id :: rest =>
    let this := signKhLoop timeout client_data options app_id key_handles
    match this.2 with
    | Except.error e => (this.1, Except.error e)
    | Except.ok _ =>
      let later := signAppLoop timeout client_data options key_handles rest
      (this.1 ++ later.1, later.2)

/-- `U2FManager::sign` (manager.rs lines 214-295): the challenge-length and
empty-application-list checks run before the loops; all per-pair validation
happens inside the loops, after earlier pairs have already been sent. -/
def U2FManager.sign (m : U2FManager) (flags : SignFlags) (timeout : Nat)
    (challenge : Bytes) (app_ids : List AppId) (key_handles : List KeyHandle) :
    List QueueAction × Except Error Unit :=
  if challenge.length ≠ PARAMETER_SIZE then ([], Except.error Error.unknown)
  else if app_ids = [] then ([], Except.error Error.unknown)
  else signAppLoop timeout (signClientData challenge) signOptions key_handles app_ids

/-- The Sign action `U2FManager::sign` enqueues for one
(application id, key handle) pair: a singleton allow-list request plus the
transform emitting the §6 triple. -/
def mkSignAction (timeout : Nat) (client_data : CollectedClientData)
    (options : MakeCredentialsOptions) (app_id : AppId) (key_handle : KeyHandle) :
    QueueAction :=
  QueueAction.sign timeout
    (GetAssertion.new client_data { hash := app_id } [key_handle.intoDescriptor]
      (Option.some options) Option.none)
    (fun assertion_object => (app_id, key_handle.credential, assertion_object.u2f_sign_data))

/-- An operation invoked on the session state machine by the worker thread
(manager.rs lines 73, 81, 86, 96). `StateMachine` itself lives outside src/,
so the engine is recorded as the trace of operations dispatched to it. -/
inductive EngineOp where
  | register (timeout : Nat) (params : MakeCredentials)
      (callback : AttestationObject × CollectedClientData → Option RegisterResult)
  | sign (timeout : Nat) (command : GetAssertion)
      (callback : AssertionObject → SignResult)
  | cancel

/-- One possible outcome of `rx.recv_timeout` in the worker loop
(manager.rs line 66). -/
inductive Recv where
  | got (a : QueueAction)
  | timeout
  | disconnected

/-- The worker loop of `U2FManager::new` (manager.rs lines 65-96). Each
schedule entry is one iteration: the Bool is the result of the `alive()`
liveness check, the `Recv` the result of `rx.recv_timeout`. Dispatches become
trace events; the trailing `sm.cancel()` after the loop is the final
`EngineOp.cancel` of every run. The liveness flag and the channel are inputs
because `RunLoop` and the mpsc channel live outside src/; an exhausted
schedule models the liveness flag being cleared. -/
def workerRun : List (Bool × Recv) → List EngineOp
  | [] => [EngineOp.cancel]
  | (alive, r) :: rest =>
    if alive then
      match r with
      | Recv.got (QueueAction.register t p c) => EngineOp.register t p c :: workerRun rest
      | Recv.got (QueueAction.sign t cmd c) => EngineOp.sign t cmd c :: workerRun rest
      | Recv.got QueueAction.cancel => EngineOp.cancel :: workerRun rest
      | Recv.timeout => workerRun rest
      | Recv.disconnected => [EngineOp.cancel]
    else [EngineOp.cancel]

/-- The engine operations dispatched for schedule steps that neither clear the
liveness flag nor disconnect: one per received action, in order. -/
def dispatchOps : List (Bool × Recv) → List EngineOp
  | [] => []
  | (_, Recv.got (QueueAction.register t p c)) :: rest =>
    EngineOp.register t p c :: dispatchOps rest
  | (_, Recv.got (QueueAction.sign t cmd c)) :: rest =>
    EngineOp.sign t cmd c :: dispatchOps rest
  | (_, Recv.got QueueAction.cancel) :: rest => EngineOp.cancel :: dispatchOps rest
  | _ :: rest => dispatchOps rest

/-- Modelled from the spec: the shared one-shot state behind
`OnceCallback`/`OnceCallbackMap` (util module, not under src/). §4.3 and §9:
every clone and map-derivative of one wrapped handler shares one atomic
one-shot flag; `delivered` records the results that actually reached the
underlying handler. -/
structure OnceState (R : Type) where
  fired : Bool
  delivered : List R

def OnceState.init (R : Type) : OnceState R :=
  { fired := false, delivered := [] }

/-- Modelled from the spec: delivering one completion to any family member
compare-and-sets the shared flag; only the winner's result reaches the
handler, later completions leave the state untouched. -/
def OnceState.deliver {R : Type} (s : OnceState R) (r : R) : OnceState R :=
  if s.fired then s else { fired := true, delivered := s.delivered ++ [r] }

/-- Modelled from the spec: a sequence of completions arriving at arbitrary
members of one adapter family, each given as that member's composed transform
paired with the raw completion value (§4.3: map wraps the invocation, not the
flag, so every member still drives the one shared flag). -/
def deliverFamily {R A : Type} (s : OnceState R) :
    List ((A → R) × A) → OnceState R
  | [] => s
  | (f, a) :: rest => deliverFamily (OnceState.deliver s (f a)) rest

/-- Client data built by `U2FManager::register` (manager.rs lines 128-133). -/
def regClientData (challenge : Bytes) : CollectedClientData :=
  { type_ := WebauthnType.create, challenge := Challenge.from challenge,
    origin := Origin.none, token_binding := Option.none }

theorem registerExcluded_err (key_handles : List KeyHandle)
    (h : ∃ kh ∈ key_handles, kh.credential.length > 256) :
    registerExcluded key_handles = Except.error Error.unknown := by
  induction key_handles with
  | nil => simp at h
  | cons kh rest ih =>
    by_cases hk : kh.credential.length > 256
    · simp [registerExcluded, hk]
    · obtain ⟨k, hmem, hlen⟩ := h
      rcases List.mem_cons.mp hmem with rfl | hmem
      · exact absurd hlen hk
      · simp [registerExcluded, hk, ih ⟨k, hmem, hlen⟩, Except.map]

/-- Exhaustive shape of a `register` call: either an early generic error with
nothing sent, or exactly one Register action whose request carries no options
and no pin. -/
theorem register_cases (m : U2FManager) (flags : RegisterFlags) (timeout : Nat)
    (challenge : Bytes) (application : AppId) (key_handles : List KeyHandle) :
    U2FManager.register m flags timeout challenge application key_handles
        = ([], Except.error Error.unknown)
    ∨ ∃ excl,
        registerExcluded key_handles = Except.ok excl ∧
        U2FManager.register m flags timeout challenge application key_handles
          = ([QueueAction.register timeout
                (MakeCredentials.new (regClientData challenge) { hash := application }
                  Option.none [] excl Option.none Option.none)
                (fun p => registerEncode p.1)], Except.ok ()) := by
  by_cases hlen : challenge.length ≠ PARAMETER_SIZE ∨ application.length ≠ PARAMETER_SIZE
  · exact Or.inl (by simp [U2FManager.register, hlen])
  · cases hexc : registerExcluded key_handles with
    | error e =>
      cases e
      exact Or.inl (by simp [U2FManager.register, hlen, hexc])
    | ok excl =>
      push_neg at hlen
      obtain ⟨hch, happ⟩ := hlen
      refine Or.inr ⟨excl, rfl, ?_⟩
      simp [U2FManager.register, hexc, RelyingParty.new_hash, hch, happ,
        MakeCredentials.new, regClientData]

theorem signKhLoop_err_oversized (t : Nat) (cd : CollectedClientData)
    (o : MakeCredentialsOptions) (app_id : AppId) (khs : List KeyHandle)
    (h : ∃ kh ∈ khs, kh.credential.length > 256) :
    (signKhLoop t cd o app_id khs).2 = Except.error Error.unknown := by
  induction khs with
  | nil => simp at h
  | cons kh rest ih =>
    by_cases hk : kh.credential.length > 256
    · simp [signKhLoop, hk]
    · obtain ⟨k, hmem, hlen⟩ := h
      rcases List.mem_cons.mp hmem with rfl | hmem
      · exact absurd hlen hk
      · cases hr : RelyingParty.new_hash app_id with
        | error u => simp [signKhLoop, hk, hr]
        | ok rp => simp [signKhLoop, hk, hr, ih ⟨k, hmem, hlen⟩]

theorem signKhLoop_err_badApp (t : Nat) (cd : CollectedClientData)
    (o : MakeCredentialsOptions) (app_id : AppId) (khs : List KeyHandle)
    (h1 : khs ≠ []) (h2 : app_id.length ≠ PARAMETER_SIZE) :
    (signKhLoop t cd o app_id khs).2 = Except.error Error.unknown := by
  cases khs with
  | nil => exact absurd rfl h1
  | cons kh rest =>
    by_cases hk : kh.credential.length > 256
    · simp [signKhLoop, hk]
    · simp [signKhLoop, hk, RelyingParty.new_hash, h2]

theorem signAppLoop_err (t : Nat) (cd : CollectedClientData)
    (o : MakeCredentialsOptions) (khs : List KeyHandle) (apps : List AppId)
    (h : ∃ a ∈ apps, (signKhLoop t cd o a khs).2 = Except.error Error.unknown) :
    (signAppLoop t cd o khs apps).2 = Except.error Error.unknown := by
  induction apps with
  | nil => simp at h
  | cons a rest ih =>
    obtain ⟨b, hmem, hb⟩ := h
    cases hr : (signKhLoop t cd o a khs).2 with
    | error e => cases e; simp [signAppLoop, hr]
    | ok u =>
      rcases List.mem_cons.mp hmem with rfl | hmem
      · rw [hr] at hb; exact Except.noConfusion hb
      · simp [signAppLoop, hr, ih ⟨b, hmem, hb⟩]

theorem signKhLoop_ok (t : Nat) (cd : CollectedClientData)
    (o : MakeCredentialsOptions) (app_id : AppId) (khs : List KeyHandle)
    (happ : app_id.length = PARAMETER_SIZE)
    (hkh : ∀ kh ∈ khs, kh.credential.length ≤ 256) :
    signKhLoop t cd o app_id khs
      = (khs.map (mkSignAction t cd o app_id), Except.ok ()) := by
  induction khs with
  | nil => simp [signKhLoop]
  | cons kh rest ih =>
    have hk : ¬ kh.credential.length > 256 := by
      have := hkh kh (List.mem_cons_self kh rest); omega
    have ihr := ih (fun k hm => hkh k (List.mem_cons_of_mem kh hm))
    simp [signKhLoop, hk, RelyingParty.new_hash, happ, ihr, mkSignAction]

theorem signAppLoop_ok (t : Nat) (cd : CollectedClientData)
    (o : MakeCredentialsOptions) (khs : List KeyHandle) (apps : List AppId)
    (happ : ∀ a ∈ apps, a.length = PARAMETER_SIZE)
    (hkh : ∀ kh ∈ khs, kh.credential.length ≤ 256) :
    signAppLoop t cd o khs apps
      = (apps.flatMap (fun a => khs.map (mkSignAction t cd o a)), Except.ok ()) := by
  induction apps with
  | nil => simp [signAppLoop]
  | cons a rest ih =>
    have h1 := signKhLoop_ok t cd o a khs (happ a (List.mem_cons_self a rest)) hkh
    have ihr := ih (fun b hm => happ b (List.mem_cons_of_mem a hm))
    simp [signAppLoop, h1, ihr]

theorem signAppLoop_nil_khs (t : Nat) (cd : CollectedClientData)
    (o : MakeCredentialsOptions) (apps : List AppId) :
    signAppLoop t cd o [] apps = ([], Except.ok ()) := by
  induction apps with
  | nil => simp [signAppLoop]
  | cons a rest ih => simp [signAppLoop, signKhLoop, ih]

theorem flatMap_map_length {α β γ : Type} (g : α → β → γ)
    (apps : List α) (khs : List β) :
    (apps.flatMap (fun a => (khs.map (g a)))).length = apps.length * khs.length := by
  induction apps with
  | nil => simp
  | cons a rest ih =>
    simp only [List.flatMap_cons, List.length_append, List.length_map, ih,
      List.length_cons]
    ring

theorem workerRun_append (pre rest : List (Bool × Recv))
    (h : ∀ s ∈ pre, s.1 = true ∧ s.2 ≠ Recv.disconnected) :
    workerRun (pre ++ rest) = dispatchOps pre ++ workerRun rest := by
  induction pre with
  | nil => simp [dispatchOps]
  | cons s pre ih =>
    obtain ⟨halive, hnd⟩ := h s (List.mem_cons_self s pre)
    have ihr := ih (fun x hx => h x (List.mem_cons_of_mem s hx))
    obtain ⟨b, r⟩ := s
    dsimp only at halive hnd
    subst halive
    cases r with
    | got a =>
      cases a with
      | register t p c => simp [workerRun, dispatchOps, ihr]
      | sign t cmd c => simp [workerRun, dispatchOps, ihr]
      | cancel => simp [workerRun, dispatchOps, ihr]
    | timeout => simp [workerRun, dispatchOps, ihr]
    | disconnected => exact absurd rfl hnd

theorem workerRun_final (sched : List (Bool × Recv)) :
    ∃ ops, workerRun sched = ops ++ [EngineOp.cancel] := by
  induction sched with
  | nil => exact ⟨[], rfl⟩
  | cons s rest ih =>
    obtain ⟨ops, hops⟩ := ih
    obtain ⟨b, r⟩ := s
    cases b with
    | false => exact ⟨[], rfl⟩
    | true =>
      cases r with
      | got a =>
        cases a with
        | register t p c =>
          exact ⟨EngineOp.register t p c :: ops, by simp [workerRun, hops]⟩
        | sign t cmd c =>
          exact ⟨EngineOp.sign t cmd c :: ops, by simp [workerRun, hops]⟩
        | cancel => exact ⟨EngineOp.cancel :: ops, by simp [workerRun, hops]⟩
      | timeout => exact ⟨ops, by simp [workerRun, hops]⟩
      | disconnected => exact ⟨[], rfl⟩

theorem deliverFamily_fired {R A : Type} (s : OnceState R)
    (l : List ((A → R) × A)) (h : s.fired = true) :
    deliverFamily s l = s := by
  induction l with
  | nil => rfl
  | cons p rest ih =>
    obtain ⟨f, a⟩ := p
    simp [deliverFamily, OnceState.deliver, h, ih]

/-- C1: the claim that an erroring register or sign call never enqueues is
false for sign. With one valid application id and a valid first key handle
followed by an oversized one, sign returns the generic error, yet one Sign
action has already been enqueued. -/
theorem C1_counterexample :
    (U2FManager.sign U2FManager.new { bits := 0 } 0 (List.replicate 32 0)
        [List.replicate 32 0]
        [{ credential := [0] }, { credential := List.replicate 257 0 }]).2
      = Except.error Error.unknown
    ∧ (U2FManager.sign U2FManager.new { bits := 0 } 0 (List.replicate 32 0)
        [List.replicate 32 0]
        [{ credential := [0] }, { credential := List.replicate 257 0 }]).1.length
      = 1 := by
  exact ⟨rfl, rfl⟩

/-- C1 (amended): register enqueues nothing whenever it returns an error, and
sign enqueues nothing when it fails one of the checks that precede the
fan-out loop (wrong challenge length or empty application-id list); a sign
failure at a later pair, however, leaves the earlier pairs' actions
enqueued. -/
theorem C1_no_enqueue_on_early_error (m : U2FManager) (flags : RegisterFlags)
    (t : Nat) (ch : Bytes) (app : AppId) (khs : List KeyHandle)
    (ms : U2FManager) (sflags : SignFlags) (ts : Nat) (chs : Bytes)
    (apps : List AppId) (khss : List KeyHandle) :
    ((U2FManager.register m flags t ch app khs).2 = Except.error Error.unknown →
      (U2FManager.register m flags t ch app khs).1 = [])
    ∧ (chs.length ≠ PARAMETER_SIZE ∨ apps = [] →
      U2FManager.sign ms sflags ts chs apps khss
        = ([], Except.error Error.unknown)) := by
  constructor
  · intro herr
    rcases register_cases m flags t ch app khs with h | ⟨excl, hexc, h⟩
    · rw [h]
    · rw [h] at herr
      simp at herr
  · intro hpre
    rcases hpre with hch | happs
    · simp [U2FManager.sign, hch]
    · subst happs
      by_cases hch : chs.length ≠ PARAMETER_SIZE
      · simp [U2FManager.sign, hch]
      · simp [U2FManager.sign, hch]

/-- C1 witness: the amended theorem applied at concrete inputs — a register
call with an empty challenge enqueues nothing, and a sign call with an empty
challenge enqueues nothing and errors. -/
theorem C1_witness :
    (U2FManager.register U2FManager.new { require_user_verification := false } 0 []
        (List.replicate 32 0) []).1 = []
    ∧ U2FManager.sign U2FManager.new { bits := 0 } 0 [] [] []
        = ([], Except.error Error.unknown) :=
  ⟨(C1_no_enqueue_on_early_error U2FManager.new { require_user_verification := false }
      0 [] (List.replicate 32 0) [] U2FManager.new { bits := 0 } 0 [] [] []).1 rfl,
   (C1_no_enqueue_on_early_error U2FManager.new { require_user_verification := false }
      0 [] (List.replicate 32 0) [] U2FManager.new { bits := 0 } 0 [] [] []).2
      (Or.inl (by decide))⟩

/-- C2: the claim that the enqueued MakeCredentials carries a
user-verification option derived from the flags is false. With
REQUIRE_USER_VERIFICATION set, the enqueued request carries no options at all
(`options = none`), and the call's whole output is identical to the output
with the flag clear. -/
theorem C2_counterexample :
    U2FManager.register U2FManager.new RegisterFlags.REQUIRE_USER_VERIFICATION 0
        (List.replicate 32 0) (List.replicate 32 1) []
      = ([QueueAction.register 0
            (MakeCredentials.new (regClientData (List.replicate 32 0))
              { hash := List.replicate 32 1 } Option.none [] [] Option.none
              Option.none)
            (fun p => registerEncode p.1)], Except.ok ())
    ∧ U2FManager.register U2FManager.new { require_user_verification := false } 0
        (List.replicate 32 0) (List.replicate 32 1) []
      = ([QueueAction.register 0
            (MakeCredentials.new (regClientData (List.replicate 32 0))
              { hash := List.replicate 32 1 } Option.none [] [] Option.none
              Option.none)
            (fun p => registerEncode p.1)], Except.ok ()) := by
  exact ⟨rfl, rfl⟩

/-- C2 (amended): register builds a user-verification option from the
caller's flags but never forwards it — every enqueued MakeCredentials carries
`options = none`, and the call result is independent of the flags. -/
theorem C2_options_not_forwarded (m : U2FManager) (flags flags2 : RegisterFlags)
    (t : Nat) (ch : Bytes) (app : AppId) (khs : List KeyHandle) :
    U2FManager.register m flags t ch app khs
        = U2FManager.register m flags2 t ch app khs
    ∧ ∀ t2 p cb,
        QueueAction.register t2 p cb ∈ (U2FManager.register m flags t ch app khs).1 →
        p.options = Option.none := by
  constructor
  · rfl
  · intro t2 p cb hmem
    rcases register_cases m flags t ch app khs with h | ⟨excl, hexc, h⟩
    · rw [h] at hmem
      simp at hmem
    · rw [h] at hmem
      have heq := List.mem_singleton.mp hmem
      injection heq with h1 h2 h3
      subst h2
      rfl

/-- C2 witness: the amended theorem applied at a concrete valid register
call — the output is flag-independent and the single enqueued request's
options field is `none`. -/
theorem C2_witness :
    U2FManager.register U2FManager.new { require_user_verification := true } 2
        (List.replicate 32 0) (List.replicate 32 1) []
      = U2FManager.register U2FManager.new { require_user_verification := false } 2
        (List.replicate 32 0) (List.replicate 32 1) []
    ∧ (MakeCredentials.new (regClientData (List.replicate 32 0))
        { hash := List.replicate 32 1 } Option.none [] [] Option.none
        Option.none).options = Option.none :=
  ⟨(C2_options_not_forwarded U2FManager.new { require_user_verification := true }
      { require_user_verification := false } 2 (List.replicate 32 0)
      (List.replicate 32 1) []).1,
   (C2_options_not_forwarded U2FManager.new { require_user_verification := true }
      { require_user_verification := false } 2 (List.replicate 32 0)
      (List.replicate 32 1) []).2 2
      (MakeCredentials.new (regClientData (List.replicate 32 0))
        { hash := List.replicate 32 1 } Option.none [] [] Option.none Option.none)
      (fun p => registerEncode p.1)
      (List.mem_singleton.mpr rfl)⟩

/-- C5: the sign half of the claim is false when the key-handle list is
empty: a 32-byte challenge with a 1-byte application id and no key handles
returns Ok instead of the claimed validation error, because
application-identifier lengths are only examined inside the per-pair loop. -/
theorem C5_counterexample :
    (∃ a ∈ ([[1]] : List AppId), a.length ≠ 32)
    ∧ U2FManager.sign U2FManager.new { bits := 0 } 0 (List.replicate 32 0) [[1]] []
      = ([], Except.ok ()) := by
  exact ⟨⟨[1], by simp, by decide⟩, rfl⟩

/-- C5 (amended): register returns the generic error whenever the challenge
or application length differs from 32 or a key handle exceeds 256 bytes; sign
returns the generic error whenever the challenge length differs from 32, the
application-id list is empty, a key handle exceeds 256 bytes, or — provided
the key-handle list is non-empty — some application id's length differs
from 32. -/
theorem C5_validation_errors (m : U2FManager) (flags : RegisterFlags) (t : Nat)
    (ch : Bytes) (app : AppId) (khs : List KeyHandle)
    (ms : U2FManager) (sflags : SignFlags) (ts : Nat) (chs : Bytes)
    (apps : List AppId) (khss : List KeyHandle) :
    ((ch.length ≠ PARAMETER_SIZE ∨ app.length ≠ PARAMETER_SIZE ∨
        ∃ kh ∈ khs, kh.credential.length > 256) →
      (U2FManager.register m flags t ch app khs).2 = Except.error Error.unknown)
    ∧ ((chs.length ≠ PARAMETER_SIZE ∨ apps = [] ∨
        (∃ kh ∈ khss, kh.credential.length > 256) ∨
        (khss ≠ [] ∧ ∃ a ∈ apps, a.length ≠ PARAMETER_SIZE)) →
      (U2FManager.sign ms sflags ts chs apps khss).2
        = Except.error Error.unknown) := by
  constructor
  · intro hbad
    rcases hbad with hch | happ | hkh
    · simp [U2FManager.register, hch]
    · simp [U2FManager.register, happ]
    · rcases register_cases m flags t ch app khs with h | ⟨excl, hexc, h⟩
      · rw [h]
      · rw [registerExcluded_err khs hkh] at hexc
        exact Except.noConfusion hexc
  · intro hbad
    by_cases hch : chs.length ≠ PARAMETER_SIZE
    · simp [U2FManager.sign, hch]
    · by_cases happs : apps = []
      · simp [U2FManager.sign, hch, happs]
      · have hsign : U2FManager.sign ms sflags ts chs apps khss
            = signAppLoop ts (signClientData chs) signOptions khss apps := by
          simp [U2FManager.sign, hch, happs]
        rw [hsign]
        rcases hbad with h | h | hkh | ⟨hne, a, hmem, hlen⟩
        · exact absurd h hch
        · exact absurd h happs
        · obtain ⟨a, hmem⟩ := List.exists_mem_of_ne_nil apps happs
          exact signAppLoop_err _ _ _ _ _
            ⟨a, hmem, signKhLoop_err_oversized _ _ _ a khss hkh⟩
        · exact signAppLoop_err _ _ _ _ _
            ⟨a, hmem, signKhLoop_err_badApp _ _ _ a khss hne hlen⟩

/-- C5 witness: the amended theorem applied at concrete inputs — register
rejects an oversized key handle, sign rejects a short application id when a
key handle is present. -/
theorem C5_witness :
    (U2FManager.register U2FManager.new { require_user_verification := false } 0
        (List.replicate 32 0) (List.replicate 32 0)
        [{ credential := List.replicate 257 0 }]).2 = Except.error Error.unknown
    ∧ (U2FManager.sign U2FManager.new { bits := 0 } 0 (List.replicate 32 0)
        [[2]] [{ credential := [] }]).2 = Except.error Error.unknown :=
  ⟨(C5_validation_errors U2FManager.new { require_user_verification := false } 0
      (List.replicate 32 0) (List.replicate 32 0)
      [{ credential := List.replicate 257 0 }] U2FManager.new { bits := 0 } 0
      (List.replicate 32 0) [[2]] [{ credential := [] }]).1
      (Or.inr (Or.inr ⟨{ credential := List.replicate 257 0 },
        List.mem_singleton.mpr rfl, by decide⟩)),
   (C5_validation_errors U2FManager.new { require_user_verification := false } 0
      (List.replicate 32 0) (List.replicate 32 0)
      [{ credential := List.replicate 257 0 }] U2FManager.new { bits := 0 } 0
      (List.replicate 32 0) [[2]] [{ credential := [] }]).2
      (Or.inr (Or.inr (Or.inr ⟨by decide, [2], by decide, by decide⟩)))⟩

/-- C9: a sign call with a 32-byte challenge, a non-empty application-id list
and an empty key-handle list returns Ok while enqueueing zero actions — the
Cartesian fan-out loop never runs, so no completion can ever reach the
caller's callback. -/
theorem C9_empty_key_handles_inert (m : U2FManager) (flags : SignFlags) (t : Nat)
    (ch : Bytes) (apps : List AppId) (hch : ch.length = PARAMETER_SIZE)
    (hne : apps ≠ []) :
    U2FManager.sign m flags t ch apps [] = ([], Except.ok ()) := by
  simp [U2FManager.sign, hch, hne, signAppLoop_nil_khs]

/-- C9 witness: the theorem applied at a concrete input. -/
theorem C9_witness :
    U2FManager.sign U2FManager.new { bits := 0 } 7 (List.replicate 32 2) [[9]] []
      = ([], Except.ok ()) :=
  C9_empty_key_handles_inert U2FManager.new { bits := 0 } 7 (List.replicate 32 2)
    [[9]] (by decide) (by decide)

/-- C3 counterexample: an attestation result satisfying all three stated
conditions (FidoU2F statement, credential data present, credential id of at
most 255 bytes) but with an empty certificate chain makes the encoder hit a
fatal condition (modelled `none`) instead of producing the described byte
sequence. -/
theorem C3_counterexample :
    (AttestationObject.mk
        (AuthenticatorData.mk (Option.some
          (AttestedCredentialData.mk [7] (CredentialPublicKey.mk [8]))))
        (AttestationStatement.fidoU2F
          (AttestationStatementFidoU2F.mk [] [3]))).att_statement
      = AttestationStatement.fidoU2F (AttestationStatementFidoU2F.mk [] [3])
    ∧ ([7] : Bytes).length ≤ 255
    ∧ registerEncode
        (AttestationObject.mk
          (AuthenticatorData.mk (Option.some
            (AttestedCredentialData.mk [7] (CredentialPublicKey.mk [8]))))
          (AttestationStatement.fidoU2F (AttestationStatementFidoU2F.mk [] [3])))
        = Option.none :=
  ⟨rfl, by decide, rfl⟩

/-- C3 (amended): for every attestation result with a FidoU2F statement,
present credential data, a credential id of at most 255 bytes and a
non-empty certificate chain, the register-path encoder produces exactly one
0x05 byte, the public-key bytes, one byte holding the credential-id length,
the credential-id bytes, the first certificate's bytes and the signature
bytes — and nothing else. The chain must be non-empty: on an empty chain the
encoder hits a fatal condition instead. -/
theorem C3_register_encoding (ao : AttestationObject)
    (cd : AttestedCredentialData) (u2f : AttestationStatementFidoU2F)
    (c0 : Bytes) (certs : List Bytes)
    (h1 : ao.auth_data.credential_data = Option.some cd)
    (h2 : ao.att_statement = AttestationStatement.fidoU2F u2f)
    (h3 : cd.credential_id.length ≤ 255)
    (h4 : u2f.attestation_cert = c0 :: certs) :
    registerEncode ao
      = Option.some (0x05 :: cd.credential_public_key.bytes
          ++ cd.credential_id.length :: cd.credential_id ++ c0 ++ u2f.sig) := by
  have hmod : cd.credential_id.length % 256 = cd.credential_id.length :=
    Nat.mod_eq_of_lt (by omega)
  simp [registerEncode, h1, h2, h4, hmod]

/-- C3 witness: the amended theorem applied at a synthetic attestation result
with known public-key, credential-id, certificate and signature bytes. -/
theorem C3_witness :
    registerEncode
      (AttestationObject.mk
        (AuthenticatorData.mk (Option.some
          (AttestedCredentialData.mk [1, 2] (CredentialPublicKey.mk [9]))))
        (AttestationStatement.fidoU2F (AttestationStatementFidoU2F.mk [[4, 5]] [6])))
      = Option.some [0x05, 9, 2, 1, 2, 4, 5, 6] :=
  C3_register_encoding _ _ _ _ _ rfl rfl (by decide) rfl

/-- C10 counterexample: the no-panic half of the claim is false — an
attestation object with credential data present and a FidoU2F statement but
an empty certificate chain still reaches a fatal condition (the out-of-bounds
index on the certificate chain, modelled `none`). -/
theorem C10_counterexample :
    (AttestationObject.mk
        (AuthenticatorData.mk (Option.some
          (AttestedCredentialData.mk [4, 4] (CredentialPublicKey.mk [2]))))
        (AttestationStatement.fidoU2F
          (AttestationStatementFidoU2F.mk [] [1]))).auth_data.credential_data.isSome
      = true
    ∧ registerEncode
        (AttestationObject.mk
          (AuthenticatorData.mk (Option.some
            (AttestedCredentialData.mk [4, 4] (CredentialPublicKey.mk [2]))))
          (AttestationStatement.fidoU2F (AttestationStatementFidoU2F.mk [] [1])))
        = Option.none :=
  ⟨rfl, rfl⟩

/-- C10 (amended): with absent credential data the encoder hits the fatal
condition of the claim (modelled `none`); with credential data present, a
FidoU2F statement and a non-empty certificate chain — the extra condition the
claim misses — the encoder always produces a byte sequence. -/
theorem C10_panic_conditions (ao ao2 : AttestationObject)
    (cd : AttestedCredentialData) (u2f : AttestationStatementFidoU2F)
    (h0 : ao.auth_data.credential_data = Option.none)
    (h1 : ao2.auth_data.credential_data = Option.some cd)
    (h2 : ao2.att_statement = AttestationStatement.fidoU2F u2f)
    (h3 : u2f.attestation_cert ≠ []) :
    registerEncode ao = Option.none ∧ (registerEncode ao2).isSome = true := by
  constructor
  · simp [registerEncode, h0]
  · cases hc : u2f.attestation_cert with
    | nil => exact absurd hc h3
    | cons c0 certs => simp [registerEncode, h1, h2, hc]

/-- C10 witness: the amended theorem applied at concrete attestation
objects. -/
theorem C10_witness :
    registerEncode
      (AttestationObject.mk (AuthenticatorData.mk Option.none)
        AttestationStatement.other) = Option.none
    ∧ (registerEncode
        (AttestationObject.mk
          (AuthenticatorData.mk (Option.some
            (AttestedCredentialData.mk [3] (CredentialPublicKey.mk [7]))))
          (AttestationStatement.fidoU2F
            (AttestationStatementFidoU2F.mk [[8]] [9])))).isSome = true :=
  C10_panic_conditions _ _ _ _ rfl rfl rfl (by decide)

/-- C4: the claim is false — the capability filter set by `fido2_capable` is
never consulted: no input exists on which the actions built and enqueued by
register or sign differ between a manager with the filter set and one
without. -/
theorem C4_counterexample :
    ¬ ∃ (flags : RegisterFlags) (t : Nat) (ch : Bytes) (app : AppId)
        (khs : List KeyHandle) (sflags : SignFlags) (t2 : Nat) (ch2 : Bytes)
        (apps : List AppId) (khs2 : List KeyHandle),
      U2FManager.register (U2FManager.fido2_capable U2FManager.new) flags t ch app khs
          ≠ U2FManager.register U2FManager.new flags t ch app khs
      ∨ U2FManager.sign (U2FManager.fido2_capable U2FManager.new) sflags t2 ch2 apps khs2
          ≠ U2FManager.sign U2FManager.new sflags t2 ch2 apps khs2 := by
  rintro ⟨flags, t, ch, app, khs, sflags, t2, ch2, apps, khs2, h | h⟩ <;> exact h rfl

/-- C4 (amended): `fido2_capable` does set the capability filter field, but
the filter is dead state — register and sign produce identical actions and
results for any two managers, whatever their filters. -/
theorem C4_filter_set_but_never_consulted (m m2 : U2FManager)
    (flags : RegisterFlags) (t : Nat) (ch : Bytes) (app : AppId)
    (khs : List KeyHandle) (sflags : SignFlags) (t2 : Nat) (ch2 : Bytes)
    (apps : List AppId) (khs2 : List KeyHandle) :
    (U2FManager.fido2_capable U2FManager.new).filter = Option.some Capability.fido2
    ∧ U2FManager.register m flags t ch app khs
        = U2FManager.register m2 flags t ch app khs
    ∧ U2FManager.sign m sflags t2 ch2 apps khs2
        = U2FManager.sign m2 sflags t2 ch2 apps khs2 :=
  ⟨rfl, rfl, rfl⟩

/-- C4 witness: the amended theorem applied at concrete managers and
arguments. -/
theorem C4_witness :
    (U2FManager.fido2_capable U2FManager.new).filter = Option.some Capability.fido2
    ∧ U2FManager.register (U2FManager.fido2_capable U2FManager.new)
        { require_user_verification := false } 1 [] [] []
        = U2FManager.register U2FManager.new
        { require_user_verification := false } 1 [] [] []
    ∧ U2FManager.sign (U2FManager.fido2_capable U2FManager.new) { bits := 0 } 1 [] [] []
        = U2FManager.sign U2FManager.new { bits := 0 } 1 [] [] [] :=
  C4_filter_set_but_never_consulted (U2FManager.fido2_capable U2FManager.new)
    U2FManager.new { require_user_verification := false } 1 [] [] []
    { bits := 0 } 1 [] [] []

/-- C6: a sign call that passes validation (32-byte challenge, non-empty list
of 32-byte application ids, key handles of at most 256 bytes) enqueues
exactly the Cartesian-product list of Sign actions — one per (application id,
key handle) pair, each holding a singleton allow-list with that key handle's
descriptor and a callback transform emitting (application id, credential id,
signature data) — and their number is N×M. -/
theorem C6_cartesian_fanout (m : U2FManager) (flags : SignFlags) (t : Nat)
    (ch : Bytes) (apps : List AppId) (khs : List KeyHandle)
    (hch : ch.length = PARAMETER_SIZE) (hne : apps ≠ [])
    (happ : ∀ a ∈ apps, a.length = PARAMETER_SIZE)
    (hkh : ∀ kh ∈ khs, kh.credential.length ≤ 256) :
    U2FManager.sign m flags t ch apps khs
      = (apps.flatMap (fun a =>
          khs.map (mkSignAction t (signClientData ch) signOptions a)), Except.ok ())
    ∧ (U2FManager.sign m flags t ch apps khs).1.length
      = apps.length * khs.length := by
  have h1 : U2FManager.sign m flags t ch apps khs
      = signAppLoop t (signClientData ch) signOptions khs apps := by
    simp [U2FManager.sign, hch, hne]
  have h2 := signAppLoop_ok t (signClientData ch) signOptions khs apps happ hkh
  refine ⟨h1.trans h2, ?_⟩
  rw [h1, h2]
  simpa using flatMap_map_length (mkSignAction t (signClientData ch) signOptions) apps khs

/-- C6 witness: the theorem applied to two application ids and two key
handles — exactly four Sign actions, the full Cartesian product. -/
theorem C6_witness :
    U2FManager.sign U2FManager.new { bits := 0 } 5 (List.replicate 32 0)
        [List.replicate 32 1, List.replicate 32 2]
        [{ credential := [3] }, { credential := [4] }]
      = ([List.replicate 32 1, List.replicate 32 2].flatMap (fun a =>
          [{ credential := [3] }, { credential := [4] }].map
            (mkSignAction 5 (signClientData (List.replicate 32 0)) signOptions a)),
         Except.ok ())
    ∧ (U2FManager.sign U2FManager.new { bits := 0 } 5 (List.replicate 32 0)
        [List.replicate 32 1, List.replicate 32 2]
        [{ credential := [3] }, { credential := [4] }]).1.length = 2 * 2 :=
  C6_cartesian_fanout U2FManager.new { bits := 0 } 5 (List.replicate 32 0)
    [List.replicate 32 1, List.replicate 32 2]
    [{ credential := [3] }, { credential := [4] }]
    (by decide) (by decide) (by decide) (by decide)

/-- C7: across one adapter family — the wrapped handler, its clones and their
map-transformed derivatives — the underlying handler runs exactly once: the
first completion delivers its (transformed) result, and every later
completion on any sibling leaves the shared state untouched, so nothing else
ever reaches the handler. -/
theorem C7_single_fire {R A : Type} (f : A → R) (a : A)
    (rest : List ((A → R) × A)) :
    (deliverFamily (OnceState.init R) ((f, a) :: rest)).delivered = [f a] := by
  have h1 : OnceState.deliver (OnceState.init R) (f a)
      = { fired := true, delivered := [f a] } := by
    simp [OnceState.deliver, OnceState.init]
  simp [deliverFamily, h1, deliverFamily_fired]

/-- C7 witness: the theorem applied to a family of two members — only the
first completion's transformed value is delivered. -/
theorem C7_witness :
    (deliverFamily (OnceState.init Nat)
      ((fun n => n + 1, 4) :: [(fun n => n * 2, 9)])).delivered = [5] :=
  C7_single_fire (fun n => n + 1) 4 [(fun n => n * 2, 9)]

/-- C8: in every worker run, a dequeued Cancel action puts the engine's
cancel into the dispatch trace before anything from later schedule steps;
every run's trace ends with one final engine cancel; and a schedule step with
the liveness flag cleared — what Manager teardown does through its Drop
handler — ends the run with only that final cancel. -/
theorem C8_cancel_ordering_and_final_cancel :
    (∀ pre post, (∀ s ∈ pre, s.1 = true ∧ s.2 ≠ Recv.disconnected) →
      workerRun (pre ++ (true, Recv.got QueueAction.cancel) :: post)
        = dispatchOps pre ++ EngineOp.cancel :: workerRun post)
    ∧ (∀ sched, ∃ ops, workerRun sched = ops ++ [EngineOp.cancel])
    ∧ (∀ pre r post, (∀ s ∈ pre, s.1 = true ∧ s.2 ≠ Recv.disconnected) →
      workerRun (pre ++ (false, r) :: post)
        = dispatchOps pre ++ [EngineOp.cancel]) := by
  refine ⟨?_, workerRun_final, ?_⟩
  · intro pre post h
    rw [workerRun_append pre _ h]
    rfl
  · intro pre r post h
    rw [workerRun_append pre _ h]
    rfl

/-- C8 witness: the cancel-ordering part applied to a concrete schedule with
one timeout poll before the Cancel, and the teardown part applied to a
concrete liveness-cleared step. -/
theorem C8_witness :
    workerRun [(true, Recv.timeout), (true, Recv.got QueueAction.cancel)]
      = dispatchOps [(true, Recv.timeout)] ++ EngineOp.cancel :: workerRun []
    ∧ workerRun [(false, Recv.timeout)] = dispatchOps [] ++ [EngineOp.cancel] :=
  ⟨C8_cancel_ordering_and_final_cancel.1 [(true, Recv.timeout)] []
      (by
        intro s hs
        rcases List.mem_singleton.mp hs with rfl
        exact ⟨rfl, fun h => nomatch h⟩),
   C8_cancel_ordering_and_final_cancel.2.2 [] Recv.timeout []
      (by intro s hs; simp at hs)⟩

end AuthenticatorRs
